import Mathlib

/-!
Verification of `scripts/add-notification-dropdown.py`.

The script scans HTML files, and into every file that contains the
`ef-header` marker but not yet the notification dropdown it injects a fixed
HTML fragment immediately after the first case-insensitive occurrence of
the literal `</header>`.

File contents are modelled as `List Char`.  Python's substring operator
`pat in s` is modelled by the decidable infix relation `pat <:+: s`;
`re.finditer(r'</header>', content, re.IGNORECASE)` is modelled by
searching for the lowercase literal inside the character-wise lowering of
the content (for this pure-ASCII pattern, Python's IGNORECASE coincides
with ASCII lowercasing).  The at-most-one in-place write of
`process_file` is recorded in the `wrote` field of `ProcessResult`.
-/

namespace EventFlow

/-- The fixed fragment template, verbatim from the script
(`NOTIFICATION_DROPDOWN_HTML`), including the leading and trailing
newline of the Python triple-quoted literal. -/
def NOTIFICATION_DROPDOWN_HTML : List Char :=
  "\n    <!-- Notification Dropdown (Pre-rendered, shown/hidden by JS) -->\n    <div id=\"notification-dropdown\" class=\"notification-dropdown\" style=\"display: none;\">\n      <div class=\"notification-header\">\n        <h3>Notifications</h3>\n        <button class=\"notification-mark-all\" id=\"notification-mark-all-read\">\n          Mark all as read\n        </button>\n      </div>\n      <div class=\"notification-list\"></div>\n      <div class=\"notification-footer\">\n        <a href=\"/notifications.html\" class=\"notification-view-all\">View all</a>\n      </div>\n    </div>\n".data

/-- `has_ef_header`: `'ef-header' in content or 'class="ef-header"' in content`. -/
def has_ef_header (content : List Char) : Bool :=
  decide ("ef-header".data <:+: content) ||
    decide ("class=\"ef-header\"".data <:+: content)

/-- `has_notification_dropdown`: `'id="notification-dropdown"' in content`. -/
def has_notification_dropdown (content : List Char) : Bool :=
  decide ("id=\"notification-dropdown\"".data <:+: content)

/-- The anchor literal `</header>` searched for by `find_header_close_tag`. -/
def headerCloseTag : List Char := "</header>".data

/-- Character-wise ASCII lowering; models `re.IGNORECASE` matching of the
all-ASCII literal `</header>`. -/
def lowerStr (s : List Char) : List Char := s.map Char.toLower

/-- Index of the first occurrence of `pat` as a contiguous substring of `s`
(the start position of `matches[0]` of `re.finditer` for a literal
pattern), or `none` when there is no occurrence. -/
def findSubstr (pat : List Char) : List Char → Option Nat
  | [] => if pat <+: ([] : List Char) then some 0 else none
  | c :: s =>
    if pat <+: (c :: s) then some 0
    else (findSubstr pat s).map (· + 1)

/-- `find_header_close_tag`: position immediately after the end of the
first case-insensitive occurrence of `</header>` (`matches[0].end()`), or
`None` when the tag does not occur. -/
def find_header_close_tag (content : List Char) : Option Nat :=
  (findSubstr headerCloseTag (lowerStr content)).map (· + headerCloseTag.length)

/-- `inject_dropdown`: `content[:pos] + '\n' + NOTIFICATION_DROPDOWN_HTML
+ content[pos:]`, or `None` when no anchor is found. -/
def inject_dropdown (content : List Char) : Option (List Char) :=
  match find_header_close_tag content with
  | none => none
  | some pos =>
    some (content.take pos ++ '\n' :: (NOTIFICATION_DROPDOWN_HTML ++ content.drop pos))

/-- Outcome of `process_file` on one file: the content stored on disk
afterwards, whether a write was performed, the returned success flag, and
the returned message. -/
structure ProcessResult where
  newContent : List Char
  wrote : Bool
  success : Bool
  message : List Char
  deriving DecidableEq

/-- `process_file` on a file whose read succeeded and returned `content`:
the marker check, the idempotence check, the injection, and the write-back
(the write happens exactly on the success path). -/
def process_file (content : List Char) : ProcessResult :=
  if has_ef_header content = false then
    ⟨content, false, false, "No ef-header found".data⟩
  else if has_notification_dropdown content = true then
    ⟨content, false, false, "Dropdown already exists".data⟩
  else
    match inject_dropdown content with
    | none => ⟨content, false, false, "Could not find header closing tag".data⟩
    | some newContent => ⟨newContent, true, true, "Successfully added dropdown".data⟩

/-- The try/except of `process_file` over a fallible environment.  The
`open`/`read` may raise (message `readError`); the classification and
patching between read and write are pure and total, so they raise
nothing; the write-back may raise (message `writeError`), in which case
the interrupted write leaves `remnant` on disk (the source truncates and
overwrites in place, so the content at exception time is
environment-determined).  Every exception reaching the handler
`except Exception as e` becomes `(False, "Error: " + str(e))`.  When the
read raises, the write statement is never reached, so the stored content
is unchanged. -/
def process_file_io (stored : List Char)
    (readError writeError : Option (List Char)) (remnant : List Char) :
    ProcessResult :=
  match readError with
  | some e => ⟨stored, false, false, "Error: ".data ++ e⟩
  | none =>
    match writeError, (process_file stored).wrote with
    | some e, true => ⟨remnant, true, false, "Error: ".data ++ e⟩
    | _, _ => process_file stored

/-- The three-way classification implicit in `process_file`'s branch
order: marker check first, idempotence check second. -/
inductive Classification where
  | eligible
  | skipNoMarker
  | skipAlreadyPatched
  deriving DecidableEq

/-- The eligibility classifier, extracted from the first two branches of
`process_file` in their source order. -/
def classify (content : List Char) : Classification :=
  if has_ef_header content = false then .skipNoMarker
  else if has_notification_dropdown content = true then .skipAlreadyPatched
  else .eligible

/-- Path comparison used by `sorted(html_files)`: lexicographic order on
the full path string. -/
def pathLe (a b : String) : Bool := decide (a ≤ b)

/-- The main loop's processing order and per-file outcomes: the
discovered files are sorted lexicographically by full path, then
processed one at a time (`fs` gives each path's content). -/
def processCorpus (files : List String) (fs : String → List Char) :
    List (String × ProcessResult) :=
  (files.mergeSort pathLe).map (fun p => (p, process_file (fs p)))

/-- The main loop's silent-skip test on a non-success message:
`"already exists" in message or "No ef-header" in message`. -/
def silentSkipCond (message : List Char) : Bool :=
  decide ("already exists".data <:+: message) ||
    decide ("No ef-header".data <:+: message)

/-- One step of the main loop's counter updates for one `(success,
message)` outcome: success, silent skip, or error. -/
def tallyStep (acc : Nat × Nat × Nat) (r : Bool × List Char) :
    Nat × Nat × Nat :=
  if r.1 = true then (acc.1 + 1, acc.2.1, acc.2.2)
  else if silentSkipCond r.2 = true then (acc.1, acc.2.1 + 1, acc.2.2)
  else (acc.1, acc.2.1, acc.2.2 + 1)

/-- The main loop's three counters `(success_count, skip_count,
error_count)` over the per-file outcomes. -/
def summarize (results : List (Bool × List Char)) : Nat × Nat × Nat :=
  results.foldl tallyStep (0, 0, 0)

/-- The bare marker test the spec reduces `has_ef_header` to:
`'ef-header' in content` alone. -/
def hasEfHeaderBare (content : List Char) : Bool :=
  decide ("ef-header".data <:+: content)

/-- A case-insensitive occurrence of `</header>` starting at position `n`
of the content. -/
def headerTagAt (c : List Char) (n : Nat) : Prop :=
  headerCloseTag <+: (lowerStr c).drop n

instance (c : List Char) (n : Nat) : Decidable (headerTagAt c n) := by
  unfold headerTagAt
  infer_instance

/- ### Characterisation of the first-occurrence search -/

lemma findSubstr_some_occurs {pat : List Char} :
    ∀ {s : List Char} {n : Nat}, findSubstr pat s = some n → pat <+: s.drop n := by
  intro s
  induction s with
  | nil =>
    intro n h
    unfold findSubstr at h
    split at h
    · cases h
      simpa using ‹pat <+: ([] : List Char)›
    · cases h
  | cons c t ih =>
    intro n h
    unfold findSubstr at h
    split at h
    · cases h
      simpa using ‹pat <+: c :: t›
    · rcases Option.map_eq_some'.mp h with ⟨m, hm, rfl⟩
      simpa using ih hm

lemma findSubstr_some_min {pat : List Char} :
    ∀ {s : List Char} {n : Nat}, findSubstr pat s = some n →
      ∀ m, m < n → ¬ pat <+: s.drop m := by
  intro s
  induction s with
  | nil =>
    intro n h
    unfold findSubstr at h
    split at h
    · cases h
      omega
    · cases h
  | cons c t ih =>
    intro n h
    unfold findSubstr at h
    split at h
    · cases h
      omega
    · rcases Option.map_eq_some'.mp h with ⟨m, hm, rfl⟩
      intro k hk
      match k with
      | 0 => simpa using ‹¬ pat <+: c :: t›
      | j + 1 =>
        have := ih hm j (by omega)
        simpa using this

lemma findSubstr_none_iff {pat : List Char} :
    ∀ {s : List Char}, findSubstr pat s = none ↔ ∀ n, ¬ pat <+: s.drop n := by
  intro s
  induction s with
  | nil =>
    unfold findSubstr
    split
    · simp only [reduceCtorEq, false_iff, not_forall]
      exact ⟨0, not_not_intro (by simpa using ‹pat <+: ([] : List Char)›)⟩
    · simp only [true_iff]
      intro n
      simpa using ‹¬ pat <+: ([] : List Char)›
  | cons c t ih =>
    unfold findSubstr
    split
    · simp only [reduceCtorEq, false_iff, not_forall]
      exact ⟨0, not_not_intro (by simpa using ‹pat <+: c :: t›)⟩
    · rw [Option.map_eq_none', ih]
      constructor
      · intro h n
        match n with
        | 0 => simpa using ‹¬ pat <+: c :: t›
        | j + 1 => simpa using h j
      · intro h n
        simpa using h (n + 1)

lemma findSubstr_some_of_occurs {pat : List Char} :
    ∀ {s : List Char} {n : Nat}, pat <+: s.drop n →
      ∃ m, findSubstr pat s = some m := by
  intro s n h
  rcases hfind : findSubstr pat s with _ | m
  · exact absurd h (findSubstr_none_iff.mp hfind n)
  · exact ⟨m, rfl⟩

/- ### Positions inside an occurrence -/

lemma add_length_le_of_prefix_drop {pat L : List Char} {n : Nat}
    (hpat : 0 < pat.length) (h : pat <+: L.drop n) :
    n + pat.length ≤ L.length := by
  have h1 := h.length_le
  rw [List.length_drop] at h1
  omega

lemma getElem_of_prefix_drop {pat L : List Char} {n i : Nat}
    (h : pat <+: L.drop n) (hi : i < pat.length) (hb : n + i < L.length) :
    L[n + i] = pat[i] := by
  obtain ⟨t, ht⟩ := h
  have hlen : i < (L.drop n).length := by
    rw [← ht]
    simpa using Nat.lt_of_lt_of_le hi (by simp)
  have hlen2 : i < (pat ++ t).length := by
    rw [ht]
    exact hlen
  have h1 : L[n + i] = (L.drop n)[i] := (List.getElem_drop L).symm
  have h2 : (L.drop n)[i] = (pat ++ t)[i] := by
    simp only [← ht]
  rw [h1, h2, List.getElem_append_left hi]

lemma toLower_efHeader_ne_gt :
    ∀ ch ∈ "ef-header".data, ch ≠ '>' := by decide

lemma lowerStr_efHeader : lowerStr "ef-header".data = "ef-header".data := by decide

/-- An exact occurrence of `ef-header` in the content cannot straddle the
injection point: the injection point is the end of a case-insensitive
`</header>` occurrence, whose last character lowers to `>`, while no
character of `ef-header` lowers to `>`. -/
lemma no_straddle {u v : List Char} {n : Nat}
    (h : headerCloseTag <+: (lowerStr (u ++ "ef-header".data ++ v)).drop n) :
    n + 9 ≤ u.length ∨ u.length + 9 ≤ n + 9 := by
  by_contra hcon
  push_neg at hcon
  obtain ⟨h1, h2⟩ := hcon
  have hb : n + 8 < (lowerStr (u ++ "ef-header".data ++ v)).length := by
    have := add_length_le_of_prefix_drop (by decide) h
    have h9 : headerCloseTag.length = 9 := by decide
    omega
  have hgt : (lowerStr (u ++ "ef-header".data ++ v))[n + 8] = '>' := by
    rw [getElem_of_prefix_drop h (by decide) hb]
    decide
  have hL : lowerStr (u ++ "ef-header".data ++ v) =
      lowerStr u ++ (lowerStr "ef-header".data ++ lowerStr v) := by
    simp [lowerStr]
  have hul : (lowerStr u).length = u.length := by simp [lowerStr]
  have hel : (lowerStr "ef-header".data).length = 9 := by decide
  have hb' : n + 8 < (lowerStr u ++ (lowerStr "ef-header".data ++ lowerStr v)).length := by
    rw [← hL]
    exact hb
  have hge : (lowerStr u).length ≤ n + 8 := by omega
  have hlt : n + 8 - (lowerStr u).length < (lowerStr "ef-header".data).length := by
    omega
  have hmid : (lowerStr u ++ (lowerStr "ef-header".data ++ lowerStr v))[n + 8] =
      (lowerStr "ef-header".data)[n + 8 - (lowerStr u).length] := by
    rw [List.getElem_append_right hge]
    exact List.getElem_append_left hlt
  have hchar : (lowerStr "ef-header".data)[n + 8 - (lowerStr u).length] = '>' := by
    rw [← hmid]
    have := hgt
    simp only [hL] at this
    exact this
  have hlt2 : n + 8 - (lowerStr u).length < "ef-header".data.length :=
    lowerStr_efHeader ▸ hlt
  have hidx : "ef-header".data[n + 8 - (lowerStr u).length] = '>' := by
    rw [← hchar]
    exact List.getElem_of_eq lowerStr_efHeader.symm _
  exact toLower_efHeader_ne_gt _ (List.getElem_mem _) hidx

/- ### The four branches of process_file -/

lemma process_file_of_no_marker {c : List Char} (h : has_ef_header c = false) :
    process_file c = ⟨c, false, false, "No ef-header found".data⟩ := by
  simp [process_file, h]

lemma process_file_of_patched {c : List Char} (h1 : has_ef_header c = true)
    (h2 : has_notification_dropdown c = true) :
    process_file c = ⟨c, false, false, "Dropdown already exists".data⟩ := by
  simp [process_file, h1, h2]

lemma process_file_of_no_anchor {c : List Char} (h1 : has_ef_header c = true)
    (h2 : has_notification_dropdown c = false)
    (h3 : inject_dropdown c = none) :
    process_file c = ⟨c, false, false, "Could not find header closing tag".data⟩ := by
  simp [process_file, h1, h2, h3]

lemma process_file_of_inject {c nc : List Char} (h1 : has_ef_header c = true)
    (h2 : has_notification_dropdown c = false)
    (h3 : inject_dropdown c = some nc) :
    process_file c = ⟨nc, true, true, "Successfully added dropdown".data⟩ := by
  simp [process_file, h1, h2, h3]

lemma inject_dropdown_of_find {c : List Char} {pos : Nat}
    (h : find_header_close_tag c = some pos) :
    inject_dropdown c =
      some (c.take pos ++ '\n' :: (NOTIFICATION_DROPDOWN_HTML ++ c.drop pos)) := by
  simp [inject_dropdown, h]

lemma find_header_close_tag_some {c : List Char} {pos : Nat}
    (h : find_header_close_tag c = some pos) :
    ∃ n, findSubstr headerCloseTag (lowerStr c) = some n ∧
      pos = n + headerCloseTag.length := by
  unfold find_header_close_tag at h
  rcases Option.map_eq_some'.mp h with ⟨n, hn, hpos⟩
  exact ⟨n, hn, hpos.symm⟩

/- ### Substrings surviving the injection -/

lemma id_infix_frag :
    "id=\"notification-dropdown\"".data <:+: NOTIFICATION_DROPDOWN_HTML :=
  List.IsInfix.trans
    (List.IsPrefix.isInfix
      (by decide : "id=\"notification-dropdown\"".data <+: NOTIFICATION_DROPDOWN_HTML.drop 80))
    (List.IsSuffix.isInfix (List.drop_suffix 80 NOTIFICATION_DROPDOWN_HTML))

lemma frag_infix_injected (c : List Char) (pos : Nat) :
    NOTIFICATION_DROPDOWN_HTML <:+:
      c.take pos ++ '\n' :: (NOTIFICATION_DROPDOWN_HTML ++ c.drop pos) :=
  ⟨c.take pos ++ ['\n'], c.drop pos, by simp⟩

lemma efheader_infix_of_marker {c : List Char} (h : has_ef_header c = true) :
    "ef-header".data <:+: c := by
  unfold has_ef_header at h
  rcases (Bool.or_eq_true _ _).mp h with h1 | h2
  · exact of_decide_eq_true h1
  · exact List.IsInfix.trans (by decide) (of_decide_eq_true h2)

/-- An `ef-header` occurrence survives the injection: by `no_straddle` it
lies entirely inside the preserved prefix or entirely inside the
preserved suffix of the patched content. -/
lemma efheader_infix_injected {c : List Char} {pos : Nat}
    (hE : "ef-header".data <:+: c)
    (hfind : find_header_close_tag c = some pos) :
    "ef-header".data <:+:
      c.take pos ++ '\n' :: (NOTIFICATION_DROPDOWN_HTML ++ c.drop pos) := by
  obtain ⟨u, v, hc⟩ := hE
  obtain ⟨n, hn, hpos⟩ := find_header_close_tag_some hfind
  have h9 : headerCloseTag.length = 9 := by decide
  have hocc := findSubstr_some_occurs hn
  rw [← hc] at hocc
  have hc' : u ++ ("ef-header".data ++ v) = c := by rw [← hc, List.append_assoc]
  rcases no_straddle hocc with hcase | hcase
  · have hple : pos ≤ u.length := by omega
    have hz : pos - u.length = 0 := by omega
    have hdrop : c.drop pos = u.drop pos ++ ("ef-header".data ++ v) := by
      rw [← hc', List.drop_append_eq_append_drop, hz, List.drop_zero]
    have h1 : "ef-header".data <:+: c.drop pos :=
      ⟨u.drop pos, v, by rw [hdrop, List.append_assoc]⟩
    have h2 : c.drop pos <:+
        c.take pos ++ '\n' :: (NOTIFICATION_DROPDOWN_HTML ++ c.drop pos) :=
      ⟨c.take pos ++ '\n' :: NOTIFICATION_DROPDOWN_HTML, by simp⟩
    exact h1.trans h2.isInfix
  · have hge : u.length + 9 ≤ pos := by omega
    have hlen1 : (u ++ "ef-header".data).length ≤ pos := by
      simp only [List.length_append, List.length_cons, List.length_nil]
      omega
    have htake : c.take pos =
        u ++ "ef-header".data ++ v.take (pos - u.length - 9) := by
      rw [← hc, List.take_append_eq_append_take, List.take_of_length_le hlen1]
      congr 2
      simp only [List.length_append, List.length_cons, List.length_nil]
      omega
    have h1 : "ef-header".data <:+: c.take pos :=
      ⟨u, v.take (pos - u.length - 9), htake.symm⟩
    have h2 : c.take pos <+:
        c.take pos ++ '\n' :: (NOTIFICATION_DROPDOWN_HTML ++ c.drop pos) :=
      ⟨'\n' :: (NOTIFICATION_DROPDOWN_HTML ++ c.drop pos), rfl⟩
    exact h1.trans h2.isInfix

/- ### Claims -/

/-- C1: processing is idempotent on file content.  A second run of
`process_file` on the content left by a first run stores the same content
and performs no write; moreover, when the first run succeeded, the
patched content contains the fragment's identifying substring
`id="notification-dropdown"`, so the second run classifies it as already
patched and returns the skip outcome. -/
theorem process_file_idempotent (c : List Char) :
    (process_file ((process_file c).newContent)).newContent =
      (process_file c).newContent ∧
    (process_file ((process_file c).newContent)).wrote = false ∧
    ((process_file c).success = true →
      has_notification_dropdown ((process_file c).newContent) = true ∧
      process_file ((process_file c).newContent) =
        ⟨(process_file c).newContent, false, false,
          "Dropdown already exists".data⟩) := by
  by_cases h1 : has_ef_header c = true
  · by_cases h2 : has_notification_dropdown c = true
    · rw [process_file_of_patched h1 h2]
      simp only
      rw [process_file_of_patched h1 h2]
      exact ⟨rfl, rfl, fun hs => by cases hs⟩
    · have h2' : has_notification_dropdown c = false := by simpa using h2
      rcases hinj : inject_dropdown c with _ | nc
      · rw [process_file_of_no_anchor h1 h2' hinj]
        simp only
        rw [process_file_of_no_anchor h1 h2' hinj]
        exact ⟨rfl, rfl, fun hs => by cases hs⟩
      · rw [process_file_of_inject h1 h2' hinj]
        simp only
        obtain ⟨pos, hfind, hnc⟩ : ∃ pos, find_header_close_tag c = some pos ∧
            nc = c.take pos ++ '\n' :: (NOTIFICATION_DROPDOWN_HTML ++ c.drop pos) := by
          unfold inject_dropdown at hinj
          rcases hf : find_header_close_tag c with _ | pos
          · rw [hf] at hinj; cases hinj
          · rw [hf] at hinj
            exact ⟨pos, rfl, (Option.some.inj hinj).symm⟩
        have hEnc : "ef-header".data <:+: nc := by
          rw [hnc]
          exact efheader_infix_injected (efheader_infix_of_marker h1) hfind
        have hmark : has_ef_header nc = true := by
          unfold has_ef_header
          rw [decide_eq_true hEnc]
          simp
        have hdd : has_notification_dropdown nc = true := by
          unfold has_notification_dropdown
          refine decide_eq_true (id_infix_frag.trans ?_)
          rw [hnc]
          exact frag_infix_injected c pos
        rw [process_file_of_patched hmark hdd]
        exact ⟨rfl, rfl, fun _ => ⟨hdd, rfl⟩⟩
  · have h1' : has_ef_header c = false := by simpa using h1
    rw [process_file_of_no_marker h1']
    simp only
    rw [process_file_of_no_marker h1']
    exact ⟨rfl, rfl, fun hs => by cases hs⟩

/-- Witness for C1: a concrete file on which the first run succeeds and
the second run reports the dropdown as already existing. -/
theorem process_file_idempotent_witness :
    (process_file "<header class=\"ef-header\"></header>".data).success = true ∧
    process_file ((process_file "<header class=\"ef-header\"></header>".data).newContent) =
      ⟨(process_file "<header class=\"ef-header\"></header>".data).newContent,
        false, false, "Dropdown already exists".data⟩ :=
  ⟨by decide,
    ((process_file_idempotent "<header class=\"ef-header\"></header>".data).2.2
      (by decide)).2⟩

/-- C2: when the anchor locator returns offset `pos`, the injected result
is exactly the prefix of the content up to `pos`, a newline, the fragment
template verbatim, and the suffix from `pos`; prefix and suffix reassemble
the untouched input, and `pos` is the end of the first case-insensitive
`</header>` occurrence. -/
theorem inject_dropdown_spec (c : List Char) (pos : Nat)
    (h : find_header_close_tag c = some pos) :
    inject_dropdown c =
      some (c.take pos ++ "\n".data ++ NOTIFICATION_DROPDOWN_HTML ++ c.drop pos) ∧
    c.take pos ++ c.drop pos = c ∧
    (∃ n, pos = n + headerCloseTag.length ∧ headerTagAt c n ∧
      ∀ m, m < n → ¬ headerTagAt c m) := by
  refine ⟨?_, List.take_append_drop pos c, ?_⟩
  · rw [inject_dropdown_of_find h]
    congr 1
    simp
  · obtain ⟨n, hn, hpos⟩ := find_header_close_tag_some h
    exact ⟨n, hpos, findSubstr_some_occurs hn,
      fun m hm => findSubstr_some_min hn m hm⟩

/-- Witness for C2 at a concrete content whose anchor ends at offset 10. -/
theorem inject_dropdown_spec_witness :
    inject_dropdown "a</HEADER>b".data =
      some ("a</HEADER>b".data.take 10 ++ "\n".data ++ NOTIFICATION_DROPDOWN_HTML ++
        "a</HEADER>b".data.drop 10) :=
  (inject_dropdown_spec "a</HEADER>b".data 10 (by decide)).1

/-- C3: the eligibility classification and its fixed priority order:
absence of the marker yields skip-no-marker (regardless of the fragment),
marker plus fragment yields skip-already-patched, and eligibility holds
exactly when the marker is present and the fragment absent. -/
theorem classify_spec (c : List Char) :
    (has_ef_header c = false → classify c = .skipNoMarker) ∧
    (has_ef_header c = true → has_notification_dropdown c = true →
      classify c = .skipAlreadyPatched) ∧
    (classify c = .eligible ↔
      has_ef_header c = true ∧ has_notification_dropdown c = false) := by
  refine ⟨fun h => by simp [classify, h],
    fun h1 h2 => by simp [classify, h1, h2], ?_⟩
  rcases h1 : has_ef_header c with _ | _ <;>
    rcases h2 : has_notification_dropdown c with _ | _ <;>
      simp [classify, h1, h2]

/-- Witness for C3: a file that already contains the fragment but lacks
the marker token is classified as skip-no-marker, not already-patched. -/
theorem classify_spec_witness :
    has_notification_dropdown "id=\"notification-dropdown\"".data = true ∧
    classify "id=\"notification-dropdown\"".data = .skipNoMarker :=
  ⟨by decide, (classify_spec "id=\"notification-dropdown\"".data).1 (by decide)⟩

/-- C4: the anchor locator returns the offset immediately after the end
of the first case-insensitive `</header>` occurrence, returns `none`
exactly when no case-insensitive occurrence exists anywhere, and depends
only on the lowercased content, so uppercase `</HEADER>` is treated
identically to `</header>`. -/
theorem find_header_close_tag_spec (c : List Char) :
    (∀ pos, find_header_close_tag c = some pos ↔
      ∃ n, pos = n + headerCloseTag.length ∧ headerTagAt c n ∧
        ∀ m, m < n → ¬ headerTagAt c m) ∧
    (find_header_close_tag c = none ↔ ∀ n, ¬ headerTagAt c n) ∧
    (∀ c', lowerStr c' = lowerStr c →
      find_header_close_tag c' = find_header_close_tag c) := by
  refine ⟨?_, ?_, ?_⟩
  · intro pos
    constructor
    · intro h
      obtain ⟨n, hn, hpos⟩ := find_header_close_tag_some h
      exact ⟨n, hpos, findSubstr_some_occurs hn,
        fun m hm => findSubstr_some_min hn m hm⟩
    · rintro ⟨n, hpos, hat, hmin⟩
      obtain ⟨m, hm⟩ := findSubstr_some_of_occurs hat
      have hm_n : m = n := by
        rcases Nat.lt_trichotomy m n with h | h | h
        · exact absurd (findSubstr_some_occurs hm) (hmin m h)
        · exact h
        · exact absurd hat (findSubstr_some_min hm n h)
      unfold find_header_close_tag
      rw [hm, hm_n, hpos]
      rfl
  · constructor
    · intro h n
      unfold find_header_close_tag at h
      exact findSubstr_none_iff.mp (Option.map_eq_none'.mp h) n
    · intro h
      unfold find_header_close_tag
      rw [Option.map_eq_none']
      exact findSubstr_none_iff.mpr h
  · intro c' hl
    unfold find_header_close_tag
    rw [hl]

/-- Witness for C4: uppercase and lowercase anchors yield the same
locator result. -/
theorem find_header_close_tag_spec_witness :
    find_header_close_tag "x</HEADER>y".data =
      find_header_close_tag "x</header>y".data :=
  (find_header_close_tag_spec "x</header>y".data).2.2 "x</HEADER>y".data (by decide)

/-- C5: marker gating.  A file without the marker token, and a file
classified skip-already-patched, are left byte-identical and no write is
performed. -/
theorem marker_gating (c : List Char) :
    (has_ef_header c = false →
      (process_file c).newContent = c ∧ (process_file c).wrote = false ∧
      process_file c = ⟨c, false, false, "No ef-header found".data⟩) ∧
    (has_ef_header c = true → has_notification_dropdown c = true →
      (process_file c).newContent = c ∧ (process_file c).wrote = false ∧
      process_file c = ⟨c, false, false, "Dropdown already exists".data⟩) := by
  constructor
  · intro h
    rw [process_file_of_no_marker h]
    exact ⟨rfl, rfl, rfl⟩
  · intro h1 h2
    rw [process_file_of_patched h1 h2]
    exact ⟨rfl, rfl, rfl⟩

/-- Witness for C5 on a marker-less file and on an already-patched file. -/
theorem marker_gating_witness :
    process_file "hello".data =
      ⟨"hello".data, false, false, "No ef-header found".data⟩ ∧
    process_file "ef-header id=\"notification-dropdown\"".data =
      ⟨"ef-header id=\"notification-dropdown\"".data, false, false,
        "Dropdown already exists".data⟩ :=
  ⟨((marker_gating "hello".data).1 (by decide)).2.2,
    ((marker_gating "ef-header id=\"notification-dropdown\"".data).2
      (by decide) (by decide)).2.2⟩

/-- C6: a file with the marker, without the fragment, and with no
case-insensitive `</header>` anywhere is left unmodified, no write is
performed, the outcome is the failure "Could not find header closing
tag", and that message is not one of the silently skipped ones. -/
theorem no_anchor_failure (c : List Char)
    (h1 : has_ef_header c = true) (h2 : has_notification_dropdown c = false)
    (h3 : ∀ n, ¬ headerTagAt c n) :
    process_file c =
      ⟨c, false, false, "Could not find header closing tag".data⟩ ∧
    (process_file c).wrote = false ∧
    silentSkipCond (process_file c).message = false := by
  have hfind : find_header_close_tag c = none := by
    unfold find_header_close_tag
    rw [Option.map_eq_none']
    exact findSubstr_none_iff.mpr h3
  have hinj : inject_dropdown c = none := by simp [inject_dropdown, hfind]
  have hmsg : silentSkipCond "Could not find header closing tag".data = false := by
    decide
  rw [process_file_of_no_anchor h1 h2 hinj]
  exact ⟨rfl, rfl, hmsg⟩

/-- Witness for C6: a marker-only file with no anchor fails with the
descriptive reason. -/
theorem no_anchor_failure_witness :
    process_file "ef-header".data =
      ⟨"ef-header".data, false, false,
        "Could not find header closing tag".data⟩ :=
  (no_anchor_failure "ef-header".data (by decide) (by decide)
    (findSubstr_none_iff.mp (by decide))).1

/-- C7: the try/except of `process_file` converts every raised error into
a `(False, "Error: ...")` outcome.  A read error is caught with no write
attempted and the stored content unchanged (whatever the write would
have done); a write error on the success path is caught and reported the
same way; when the pure processing performs no write, a pending write
fault is never hit; with no fault the orchestrator is the pure total
per-content processing, which propagates no exception. -/
theorem process_file_io_spec (stored e rem : List Char) :
    (∀ we, process_file_io stored (some e) we rem =
      ⟨stored, false, false, "Error: ".data ++ e⟩) ∧
    ((process_file stored).wrote = true →
      process_file_io stored none (some e) rem =
        ⟨rem, true, false, "Error: ".data ++ e⟩) ∧
    ((process_file stored).wrote = false →
      process_file_io stored none (some e) rem = process_file stored) ∧
    process_file_io stored none none rem = process_file stored := by
  refine ⟨fun we => rfl, fun h => ?_, fun h => ?_, ?_⟩
  · simp [process_file_io, h]
  · simp [process_file_io, h]
  · rfl

/-- Witness for C7: a concrete read failure leaves the file untouched,
and a concrete write failure on a successfully patched file is converted
into the error outcome. -/
theorem process_file_io_spec_witness :
    process_file_io "<header class=\"ef-header\"></header>".data none
        (some "disk full".data) "leftover".data =
      ⟨"leftover".data, true, false, "Error: ".data ++ "disk full".data⟩ ∧
    process_file_io "x".data (some "Permission denied".data) none "y".data =
      ⟨"x".data, false, false, "Error: ".data ++ "Permission denied".data⟩ :=
  ⟨(process_file_io_spec "<header class=\"ef-header\"></header>".data
      "disk full".data "leftover".data).2.1 (by decide),
    (process_file_io_spec "x".data "Permission denied".data "y".data).1 none⟩

/-- C8: the main loop visits the discovered files in lexicographically
sorted order of full path: the processed sequence is sorted, is a
permutation of the discovered paths, pairs each path with the processing
of its content, and is invariant under reordering of the discovery
result. -/
theorem processCorpus_spec (files : List String) (fs : String → List Char) :
    ((processCorpus files fs).map Prod.fst).Sorted (· ≤ ·) ∧
    ((processCorpus files fs).map Prod.fst).Perm files ∧
    (∀ p r, (p, r) ∈ processCorpus files fs → r = process_file (fs p)) ∧
    (∀ files', files.Perm files' →
      processCorpus files fs = processCorpus files' fs) := by
  have htrans : ∀ a b c' : String,
      pathLe a b = true → pathLe b c' = true → pathLe a c' = true := by
    intro a b c' hab hbc
    exact decide_eq_true (le_trans (of_decide_eq_true hab) (of_decide_eq_true hbc))
  have htotal : ∀ a b : String, (pathLe a b || pathLe b a) = true := by
    intro a b
    rcases le_total a b with h | h
    · have hab : pathLe a b = true := decide_eq_true h
      rw [hab, Bool.true_or]
    · have hba : pathLe b a = true := decide_eq_true h
      rw [hba, Bool.or_true]
  have hsorted : ∀ l : List String,
      (l.mergeSort pathLe).Sorted (· ≤ · : String → String → Prop) := by
    intro l
    exact (List.sorted_mergeSort htrans htotal l).imp
      (fun hab => of_decide_eq_true hab)
  have hmap : ∀ l : List String,
      ((l.map (fun p => (p, process_file (fs p)))).map Prod.fst) = l := by
    intro l
    induction l with
    | nil => rfl
    | cons a t ih => simp only [List.map_cons, ih]
  refine ⟨?_, ?_, ?_, ?_⟩
  · unfold processCorpus
    rw [hmap]
    exact hsorted files
  · unfold processCorpus
    rw [hmap]
    exact List.mergeSort_perm files pathLe
  · intro p r hmem
    unfold processCorpus at hmem
    rcases List.mem_map.mp hmem with ⟨q, hq, heq⟩
    injection heq with hqp hr
    rw [← hqp]
    exact hr.symm
  · intro files' hperm
    unfold processCorpus
    congr 1
    exact List.eq_of_perm_of_sorted
      ((List.mergeSort_perm files pathLe).trans
        (hperm.trans (List.mergeSort_perm files' pathLe).symm))
      (hsorted files) (hsorted files')

/-- Witness for C8: two discovery orders of the same two files produce
the same processed sequence. -/
theorem processCorpus_spec_witness :
    processCorpus ["b", "a"] (fun _ => []) =
      processCorpus ["a", "b"] (fun _ => []) :=
  (processCorpus_spec ["b", "a"] (fun _ => [])).2.2.2 ["a", "b"] (by decide)

lemma foldl_tally (rs : List (Bool × List Char)) :
    ∀ acc : Nat × Nat × Nat,
      rs.foldl tallyStep acc =
        (acc.1 + (rs.countP fun r => r.1),
         acc.2.1 + (rs.countP fun r => !r.1 && silentSkipCond r.2),
         acc.2.2 + (rs.countP fun r => !r.1 && !silentSkipCond r.2)) := by
  induction rs with
  | nil =>
    intro acc
    simp [List.countP_nil]
  | cons r t ih =>
    intro acc
    rw [List.foldl_cons, ih]
    unfold tallyStep
    rcases hr1 : r.1 with _ | _ <;>
      rcases hr2 : silentSkipCond r.2 with _ | _ <;>
        simp [List.countP_cons, hr1, hr2] <;> omega

lemma countP_tally_partition (rs : List (Bool × List Char)) :
    (rs.countP fun r => r.1) + (rs.countP fun r => !r.1 && silentSkipCond r.2) +
      (rs.countP fun r => !r.1 && !silentSkipCond r.2) = rs.length := by
  induction rs with
  | nil => simp
  | cons r t ih =>
    rcases hr1 : r.1 with _ | _ <;>
      rcases hr2 : silentSkipCond r.2 with _ | _ <;>
        simp [List.countP_cons, hr1, hr2] <;> omega

/-- C9: every processed file contributes to exactly one of the three
counters, so they sum to the number of files; a non-success outcome is
counted as a silent skip exactly when its message contains "already
exists" or "No ef-header" — in particular an error message containing
such a substring is tallied as a skip. -/
theorem summarize_spec (rs : List (Bool × List Char)) :
    (summarize rs).1 + (summarize rs).2.1 + (summarize rs).2.2 = rs.length ∧
    (summarize rs).1 = rs.countP (fun r => r.1) ∧
    (summarize rs).2.1 = rs.countP (fun r => !r.1 && silentSkipCond r.2) ∧
    (summarize rs).2.2 = rs.countP (fun r => !r.1 && !silentSkipCond r.2) ∧
    summarize [(false, "Error: output file already exists".data)] = (0, 1, 0) := by
  unfold summarize
  rw [foldl_tally rs (0, 0, 0)]
  refine ⟨?_, by simp, by simp, by simp, by decide⟩
  simpa using countP_tally_partition rs

/-- C10: the marker test is a bare substring test: the second disjunct of
`has_ef_header` is redundant, so the test is equivalent to checking that
`ef-header` occurs anywhere in the content. -/
theorem has_ef_header_redundant (c : List Char) :
    has_ef_header c = hasEfHeaderBare c := by
  unfold has_ef_header hasEfHeaderBare
  by_cases hC : "class=\"ef-header\"".data <:+: c
  · have hE : "ef-header".data <:+: c := List.IsInfix.trans (by decide) hC
    simp [decide_eq_true hE, decide_eq_true hC]
  · simp [decide_eq_false hC]

end EventFlow
